import Mathlib

/-!
Verification development for the conversational inventory agent
(`index.js`, `cmd_parser.js`).  The JavaScript sources are shallowly
embedded: strings are Lean `String`s handled as `List Char`, JS numbers
holding quantities/costs are `ℚ`, integer quantities parsed from digit
strings are `Nat`, and the process-local `Map`s are association lists.
Regular expressions are translated into deterministic character-list
scanners that reproduce the backtracking behaviour of the concrete
patterns used by the source (argued case by case at each definition).
-/

/-! ## JS string primitives -/

/-- Character class of the JS regex `\s` / `String.prototype.trim`
(ASCII whitespace plus the Unicode space separators JS treats as
whitespace). -/
def jsWs (c : Char) : Bool :=
  decide (c = ' ' ∨ c = '\t' ∨ c = '\n' ∨ c = '\r' ∨ c = '\x0b' ∨ c = '\x0c' ∨
    c = ' ' ∨ c = ' ' ∨ (' ' ≤ c ∧ c ≤ ' ') ∨ c = ' ' ∨
    c = ' ' ∨ c = ' ' ∨ c = ' ' ∨ c = '　' ∨ c = '﻿')

def dropWs (cs : List Char) : List Char := cs.dropWhile (fun c => jsWs c)

def trimL (cs : List Char) : List Char :=
  ((cs.dropWhile (fun c => jsWs c)).reverse.dropWhile (fun c => jsWs c)).reverse

/-- JS `String.prototype.trim`. -/
def jsTrim (s : String) : String := String.mk (trimL s.data)

/-- JS `toLowerCase` restricted to ASCII letters (the repository's data
uses only ASCII codes and CJK labels, which `toLowerCase` leaves
unchanged). -/
def jsLowerChar (c : Char) : Char :=
  if 'A' ≤ c ∧ c ≤ 'Z' then Char.ofNat (c.toNat + 32) else c

def jsToLower (s : String) : String := String.mk (s.data.map jsLowerChar)

/-- Value of a (non-empty) ASCII digit string, as read by JS `parseInt`. -/
def digitsToNat (ds : List Char) : Nat :=
  ds.foldl (fun n c => n * 10 + (c.toNat - 48)) 0

def startsWithL : List Char → List Char → Bool
  | _, [] => true
  | [], _ :: _ => false
  | c :: cs, d :: ds => c = d && startsWithL cs ds

/-- JS regex `\w` = `[A-Za-z0-9_]` (ASCII; CJK characters are not word
characters, which drives the `\b` behaviour of the token scanner). -/
def isWordCh (c : Char) : Bool :=
  decide (('a' ≤ c ∧ c ≤ 'z') ∨ ('A' ≤ c ∧ c ≤ 'Z') ∨ ('0' ≤ c ∧ c ≤ '9') ∨ c = '_')

/-! ## `parseCommand` (index.js)

The branch regexes are anchored alternation/option patterns; each is
translated into a scanner whose greedy/backtracking behaviour is shown
to coincide with the regex (the optional groups all start with
characters no later part of the pattern can consume, so greedy matching
is deterministic; the two genuine backtracking points — the bare
trailing `(\d+)?` group and the `出庫|出` alternation — are encoded
explicitly as an all-or-nothing retry). -/

inductive ParsedCmd where
  | db : ParsedCmd
  | whSelect (warehouse : String) : ParsedCmd
  | barcode (code : String) : ParsedCmd
  | skuCmd (sku : String) : ParsedCmd
  | query (keyword : String) : ParsedCmd
  | change (box piece : Nat) (warehouse : Option String) : ParsedCmd
deriving DecidableEq, Repr

/-- Capture of a trailing `\s*(.+)$`: fails on the empty remainder, and
the later JS `.trim()` of the capture equals trimming the whole
remainder. -/
def captureRest (cs : List Char) : Option String :=
  match cs with
  | [] => none
  | _ => some (jsTrim (String.mk cs))

/-- `^倉(?:庫)?\s*(.+)$` (taking the optional `庫` greedily, retrying
without it when the capture would be empty, as the regex backtracks). -/
def matchWhSelCmd (cs : List Char) : Option String :=
  match cs with
  | '倉' :: r =>
    match r with
    | '庫' :: r2 =>
      (match captureRest r2 with
       | some w => some w
       | none => captureRest r)
    | _ => captureRest r
  | _ => none

/-- Shared tail `[:：]?\s*(.+)$` of the barcode / sku branches. -/
def matchColonCapture (r : List Char) : Option String :=
  match r with
  | c :: rest =>
    if c = ':' ∨ c = '：' then
      (match captureRest rest with
       | some w => some w
       | none => captureRest r)
    else captureRest r
  | [] => none

/-- `^條碼[:：]?\s*(.+)$`. -/
def matchBarcodeCmd (cs : List Char) : Option String :=
  if startsWithL cs ['條', '碼'] then matchColonCapture (cs.drop 2) else none

/-- `^#\s*(.+)$`. -/
def matchHashSkuCmd (cs : List Char) : Option String :=
  match cs with
  | '#' :: r => captureRest r
  | _ => none

/-- `^編號[:：]?\s*(.+)$`. -/
def matchSkuNumCmd (cs : List Char) : Option String :=
  if startsWithL cs ['編', '號'] then matchColonCapture (cs.drop 2) else none

/-- `^查(?:詢)?\s*(.+)$`. -/
def matchQueryCmd (cs : List Char) : Option String :=
  match cs with
  | '查' :: r =>
    match r with
    | '詢' :: r2 =>
      (match captureRest r2 with
       | some w => some w
       | none => captureRest r)
    | _ => captureRest r
  | _ => none

/-- One optional `(?:(\d+)\s*U)?` group of the outbound-change regex
(`U` a single-character unit class).  Greedy digits followed by `\s*`
and a unit character; shorter digit takes always leave a digit where the
unit is required, so the group either matches maximally or not at all. -/
def numUnitGroup (units : List Char) (cs : List Char) : Option (List Char) × List Char :=
  let p := cs.span (fun c => c.isDigit)
  if p.1 = [] then (none, cs)
  else
    match dropWs p.2 with
    | u :: r3 => if units.contains u then (some p.1, r3) else (none, cs)
    | [] => (none, cs)

/-- The warehouse group `(?:\s*(?:@|（?\(?倉庫[:：=]\s*)([^)）]+)\)?)` of
the outbound-change regex: returns the capture and the remainder after
the optional closing `)`. -/
def whTailGroup (cs : List Char) : Option (List Char × List Char) :=
  let a := dropWs cs
  let pfxRest : Option (List Char) :=
    match a with
    | '@' :: r => some r
    | _ =>
      let b := match a with
        | '（' :: r => r
        | _ => a
      let b2 := match b with
        | '(' :: r => r
        | _ => b
      if startsWithL b2 ['倉', '庫'] then
        match b2.drop 2 with
        | c :: rest => if c = ':' ∨ c = '：' ∨ c = '=' then some (dropWs rest) else none
        | [] => none
      else none
  match pfxRest with
  | none => none
  | some p =>
    let q := p.span (fun c => ¬ (c = ')' ∨ c = '）'))
    if q.1 = [] then none
    else
      let r2 := match q.2 with
        | ')' :: rr => rr
        | _ => q.2
      some (q.1, r2)

/-- Tail of the outbound-change regex: optional warehouse group followed
by `\s*$`.  When the group matches but the anchor then fails, the regex
backtracks to skipping the whole optional group (shorter captures always
leave an unconsumable character). -/
def finishTail (cs : List Char) : Option (Option (List Char)) :=
  match whTailGroup cs with
  | some (cap, r2) =>
    if dropWs r2 = [] then some (some cap)
    else if dropWs cs = [] then some none
    else none
  | none => if dropWs cs = [] then some none else none

/-- Body of
`\s*(?:(\d+)\s*箱)?\s*(?:(\d+)\s*(?:個|散|件))?\s*(?:(\d+))?(?:…倉庫…)?\s*$`
after the `出庫|出` head.  The bare `(\d+)?` group is all-or-nothing:
taking fewer digits leaves a digit that nothing later can consume. -/
def changeBody (cs : List Char) :
    Option (Option (List Char) × Option (List Char) × Option (List Char) × Option (List Char)) :=
  let cs1 := dropWs cs
  let g1 := numUnitGroup ['箱'] cs1
  let cs3 := dropWs g1.2
  let g2 := numUnitGroup ['個', '散', '件'] cs3
  let cs5 := dropWs g2.2
  let p := cs5.span (fun c => c.isDigit)
  if p.1 = [] then
    match finishTail cs5 with
    | some w => some (g1.1, g2.1, none, w)
    | none => none
  else
    match finishTail p.2 with
    | some w => some (g1.1, g2.1, some p.1, w)
    | none =>
      match finishTail cs5 with
      | some w => some (g1.1, g2.1, none, w)
      | none => none

/-- The `mChange` branch of `parseCommand`, including the
piece-quantity fallback chain `pieceLabeled || pieceTail || (no-unit
digit strip)`. -/
def matchChangeCmd (t : String) : Option (Nat × Nat × Option String) :=
  let cs := t.data
  let body :=
    if startsWithL cs ['出', '庫'] then
      match changeBody (cs.drop 2) with
      | some r => some r
      | none => changeBody (cs.drop 1)
    else if startsWithL cs ['出'] then changeBody (cs.drop 1)
    else none
  match body with
  | none => none
  | some (bG, pG, tG, wcap) =>
    let box := match bG with
      | some ds => digitsToNat ds
      | none => 0
    let pieceLabeled := match pG with
      | some ds => digitsToNat ds
      | none => 0
    let pieceTail := match tG with
      | some ds => digitsToNat ds
      | none => 0
    let rawHasDigit := cs.any (fun c => c.isDigit)
    let hasUnit := cs.any (fun c => decide (c = '箱' ∨ c = '個' ∨ c = '散' ∨ c = '件'))
    let piece :=
      if pieceLabeled ≠ 0 then pieceLabeled
      else if pieceTail ≠ 0 then pieceTail
      else if hasUnit = false ∧ rawHasDigit = true ∧ box = 0 then
        digitsToNat (cs.filter (fun c => c.isDigit))
      else 0
    let wh := jsTrim (String.mk (wcap.getD []))
    some (box, piece, if wh = "" then none else some wh)

/-- The priority gate `^(查|查詢|編號|#|條碼|出庫|出|倉)`. -/
def hasCmdGate (cs : List Char) : Bool :=
  startsWithL cs ['查'] || startsWithL cs ['查', '詢'] || startsWithL cs ['編', '號'] ||
  startsWithL cs ['#'] || startsWithL cs ['條', '碼'] || startsWithL cs ['出', '庫'] ||
  startsWithL cs ['出'] || startsWithL cs ['倉']

/-- `parseCommand` of index.js. -/
def parseCommand (text : String) : Option ParsedCmd :=
  let t := jsTrim text
  if t = "" then none
  else if t = "db" ∨ t = "DB" ∨ t = "版本" then some .db
  else if hasCmdGate t.data = false then none
  else
    match matchWhSelCmd t.data with
    | some w => some (.whSelect w)
    | none =>
      match matchBarcodeCmd t.data with
      | some b => some (.barcode b)
      | none =>
        match matchHashSkuCmd t.data with
        | some s1 => some (.skuCmd s1)
        | none =>
          match matchSkuNumCmd t.data with
          | some s2 => some (.skuCmd s2)
          | none =>
            match matchQueryCmd t.data with
            | some k => some (.query k)
            | none =>
              match matchChangeCmd t with
              | some (b, p, w) => some (.change b p w)
              | none => none

/-! ## `parseOutCommand` (cmd_parser.js)

The token regex is `(\d+)\s*(箱|件|散|個|pcs|pc)\b` with flags `gi`.
JS `\b` is an ASCII word boundary, so after a CJK unit character it
holds only when the next character is an ASCII word character, and after
`pc`/`pcs` only when the next character is not (or the input ends). -/

/-- `normalizeText_` of cmd_parser.js: full-width space and comma
variants to space, whitespace runs collapsed, then trimmed. -/
def squeezeSpaces : List Char → List Char
  | [] => []
  | [c] => [c]
  | a :: b :: r =>
    if a = ' ' ∧ b = ' ' then squeezeSpaces (b :: r) else a :: squeezeSpaces (b :: r)

def normalizeText_ (s : String) : String :=
  let a := s.data.map (fun c => if c = '　' then ' ' else c)
  let b := a.map (fun c => if c = '，' ∨ c = ',' then ' ' else c)
  let c := b.map (fun ch => if jsWs ch then ' ' else ch)
  String.mk (trimL (squeezeSpaces c))

/-- `parsePositiveInt_` of cmd_parser.js (`Number.isSafeInteger` bound,
strictly positive). -/
def SAFE_INT_MAX : Nat := 9007199254740991

def parsePositiveInt_ (ds : List Char) : Option Nat :=
  let s := trimL ds
  if s ≠ [] ∧ s.all (fun c => c.isDigit) then
    let n := digitsToNat s
    if n ≤ SAFE_INT_MAX ∧ 0 < n then some n else none
  else none

/-- One attempt of `(\d+)\s*(箱|件|散|個|pcs|pc)\b` at the head of the
input: digits, optional whitespace, a unit alternative in pattern
order, then the ASCII word boundary.  Returns the digit capture, the
lower-cased unit, and the remainder. -/
def matchTokenAt (cs : List Char) : Option (List Char × String × List Char) :=
  let p := cs.span (fun c => c.isDigit)
  if p.1 = [] then none
  else
    match dropWs p.2 with
    | [] => none
    | c :: r3 =>
      if c = '箱' ∨ c = '件' ∨ c = '散' ∨ c = '個' then
        -- after a CJK (non-word) unit, `\b` needs a word character next
        match r3 with
        | d :: _ => if isWordCh d then some (p.1, String.mk [c], r3) else none
        | [] => none
      else if jsLowerChar c = 'p' then
        match r3 with
        | c2 :: r4 =>
          if jsLowerChar c2 = 'c' then
            match r4 with
            | c3 :: r5 =>
              if jsLowerChar c3 = 's' then
                -- `pcs`; on boundary failure the `pc` alternative would
                -- face the word character `s` and fail as well
                match r5 with
                | d :: _ => if isWordCh d then none else some (p.1, "pcs", r5)
                | [] => some (p.1, "pcs", r5)
              else
                -- `pc` with the boundary against `c3`
                if isWordCh c3 then none else some (p.1, "pc", r4)
            | [] => some (p.1, "pc", r4)
          else none
        | [] => none
      else none

/-- Global scan of the token regex plus the effect of
`rest.replace(tokenRe, '')`: the matched tokens in order, and the
residual characters.  Fuel equals the input length; every step consumes
at least one character, so the fuel never runs out. -/
def scanTokensF : Nat → List Char → List (List Char × String) × List Char
  | 0, cs => ([], cs)
  | _ + 1, [] => ([], [])
  | fuel + 1, c :: rest =>
    match matchTokenAt (c :: rest) with
    | some (ds, u, r) =>
      let p := scanTokensF fuel r
      ((ds, u) :: p.1, p.2)
    | none =>
      let p := scanTokensF fuel rest
      (p.1, c :: p.2)

def scanTokens (cs : List Char) : List (List Char × String) × List Char :=
  scanTokensF cs.length cs

/-- The `^(出庫|出)\s*(.+)$` head of `parseOutCommand`; the alternation
backtracks from `出庫` to `出` when nothing remains for the capture. -/
def outSplit (cs : List Char) : Option (String × List Char) :=
  if startsWithL cs ['出', '庫'] then
    if cs.drop 2 ≠ [] then some ("出庫", cs.drop 2)
    else if cs.drop 1 ≠ [] then some ("出", cs.drop 1)
    else none
  else if startsWithL cs ['出'] then
    if cs.drop 1 ≠ [] then some ("出", cs.drop 1) else none
  else none

/-- The canonical `normalized` string built on a successful parse. -/
def mkNormalized (pfx : String) (b p : Nat) : String :=
  jsTrim (pfx ++ " " ++ (if b ≠ 0 then toString b ++ "箱" else "") ++
    (if b ≠ 0 ∧ p ≠ 0 then " " else "") ++ (if p ≠ 0 then toString p ++ "件" else ""))

inductive OutParse where
  | ok (boxQty pieceQty : Nat) (normalized : String) : OutParse
  | err (error : String) (normalized : Option String) : OutParse
deriving DecidableEq, Repr

/-- `parseOutCommand` of cmd_parser.js. -/
def parseOutCommand (input : String) : OutParse :=
  let text := normalizeText_ input
  if text = "" then .err "empty" none
  else
    match outSplit text.data with
    | none => .err "no_prefix" none
    | some (pfx, restCs) =>
      let rest := jsTrim (String.mk restCs)
      if rest = "" then .err "no_amount" none
      else
        let sc := scanTokens rest.data
        let bp := sc.1.foldl (fun (bp : Nat × Nat) tk =>
          match parsePositiveInt_ tk.1 with
          | none => bp
          | some n => if tk.2 = "箱" then (bp.1 + n, bp.2) else (bp.1, bp.2 + n)) (0, 0)
        let restStripped := sc.2.filter (fun c => !(jsWs c))
        if sc.1 = [] then .err "no_tokens" (some text)
        else if restStripped ≠ [] then .err "has_extra_text" (some text)
        else if bp.1 = 0 ∧ bp.2 = 0 then .err "non_positive" (some text)
        else .ok bp.1 bp.2 (mkNormalized pfx bp.1 bp.2)

/-! ## Warehouse label / code resolver (index.js) -/

def FIX_CODE_TO_NAME : List (String × String) :=
  [("main", "總倉"), ("main_warehouse", "總倉"), ("swap", "夾換品"),
   ("withdraw", "撤台"), ("unspecified", "未指定")]

def lookupS {α : Type} : List (String × α) → String → Option α
  | [], _ => none
  | (k, v) :: r, key => if k = key then some v else lookupS r key

def mapGetD {α : Type} (m : List (String × α)) (k : String) (d : α) : α :=
  (lookupS m k).getD d

/-- JS `Map.set`: update in place, else append (insertion order kept). -/
def mapUpd {α : Type} : List (String × α) → String → α → List (String × α)
  | [], k, v => [(k, v)]
  | (k2, v2) :: r, k, v => if k2 = k then (k2, v) :: r else (k2, v2) :: mapUpd r k v

def resolveWarehouseLabel_ (codeOrName : String) : String :=
  let k := jsTrim codeOrName
  if k = "" then "未指定"
  else
    match lookupS FIX_CODE_TO_NAME k with
    | some n => n
    | none => k

def isAsciiIdChar (c : Char) : Bool :=
  decide (('a' ≤ c ∧ c ≤ 'z') ∨ ('A' ≤ c ∧ c ≤ 'Z') ∨ ('0' ≤ c ∧ c ≤ '9') ∨ c = '_')

/-- The reverse loop `for (const [code, name] of FIX_CODE_TO_NAME)`. -/
def findCodeByName : List (String × String) → String → Option String
  | [], _ => none
  | (code, name) :: r, s => if name = s then some code else findCodeByName r s

def getWarehouseCodeForLabel_ (labelOrCode : String) : String :=
  let s := jsTrim labelOrCode
  if s = "" then "unspecified"
  else
    let low := jsToLower s
    if low.data ≠ [] ∧ low.data.all (fun c => isAsciiIdChar c) then
      if low = "main_warehouse" then "main" else low
    else
      match findCodeByName FIX_CODE_TO_NAME s with
      | some code => if code = "main_warehouse" then "main" else code
      | none => "unspecified"

/-! ## Per-actor caches and the outbound lock (index.js) -/

def skuKey_ (s : String) : String := jsToLower (jsTrim s)

def getLastSku_ (m : List (String × String)) (actorKey : String) : String :=
  skuKey_ (mapGetD m actorKey "")

def setLastSku_ (m : List (String × String)) (actorKey sku : String) : List (String × String) :=
  if actorKey = "" then m else mapUpd m actorKey (skuKey_ sku)

def getLastWh_ (m : List (String × String)) (actorKey : String) : String :=
  jsToLower (jsTrim (mapGetD m actorKey ""))

def setLastWh_ (m : List (String × String)) (actorKey whCode : String) : List (String × String) :=
  if actorKey = "" then m
  else mapUpd m actorKey (let v := jsToLower (jsTrim whCode); if v = "" then "unspecified" else v)

def OUT_LOCK_MS : Nat := 5000

/-- `isOutLocked_`: the stored expiry (`untilMs`, default 0) is still in
the future. -/
def isOutLocked_ (now : Nat) (lock : List (String × Nat)) (actorKey : String) : Bool :=
  decide (now < mapGetD lock actorKey 0)

/-- `setOutLock_`: expiry becomes acquisition time plus 5000 ms; entries
are only ever overwritten, never deleted. -/
def setOutLock_ (now : Nat) (lock : List (String × Nat)) (actorKey : String) :
    List (String × Nat) :=
  mapUpd lock actorKey (now + OUT_LOCK_MS)

/-! ## Live stock from lots (index.js)

An `inventory_lots` row; `qty_left` and `unit_cost_piece` are JS numbers
(`ℚ`), `units_per_box` from the product master is an integer. -/

structure Lot where
  product_sku : String
  warehouse_code : String
  uom : String
  qty_left : ℚ
  unit_cost_piece : ℚ
deriving DecidableEq, Repr

/-- Row normalisation `String(r.warehouse_code || 'unspecified').trim().toLowerCase() || 'unspecified'`. -/
def normWh (s : String) : String :=
  let a := if s = "" then "unspecified" else s
  let b := jsToLower (jsTrim a)
  if b = "" then "unspecified" else b

/-- The product-master lookup: `units_per_box` of the SKU, 0 when the
SKU is unknown (`maybeSingle` returns null). -/
def getUnitsPerBox (prods : List (String × Int)) (s : String) : Int :=
  (lookupS prods s).getD 0

/-- The supabase query filter of `getWarehousesStockBySkuFromLots_`:
`eq product_sku`, `in uom (box, piece)`, `gt qty_left 0`. -/
def lotMatchesSku (s : String) (l : Lot) : Bool :=
  decide (l.product_sku = s) && (decide (l.uom = "box") || decide (l.uom = "piece")) &&
  decide (0 < l.qty_left)

def lotsQuery (s : String) (lots : List Lot) : List Lot :=
  lots.filter (fun l => lotMatchesSku s l)

structure WhAcc where
  box : ℚ
  piece : ℚ
  amount : ℚ
deriving DecidableEq, Repr

def emptyWhAcc : WhAcc := ⟨0, 0, 0⟩

/-- The per-row accumulation of the aggregation loops: box lots add
`qty` to box and `qty * unitsPerBox * cost` to amount, piece lots add
`qty` to piece and `qty * cost` to amount. -/
def addLot (upb : Int) (acc : WhAcc) (uom : String) (qty cost : ℚ) : WhAcc :=
  if uom = "box" then ⟨acc.box + qty, acc.piece, acc.amount + qty * (upb : ℚ) * cost⟩
  else if uom = "piece" then ⟨acc.box, acc.piece + qty, acc.amount + qty * cost⟩
  else acc

/-- One iteration of the `for (const r of rows)` grouping loop of
`getWarehousesStockBySkuFromLots_` (JS `Map` upsert). -/
def stockStep (upb : Int) (m : List (String × WhAcc)) (r : Lot) : List (String × WhAcc) :=
  let wh := normWh r.warehouse_code
  mapUpd m wh (addLot upb (mapGetD m wh emptyWhAcc) (jsToLower r.uom) r.qty_left r.unit_cost_piece)

structure WhStock where
  code : String
  label : String
  box : ℚ
  piece : ℚ
  amount : ℚ
deriving DecidableEq, Repr

/-- `getWarehousesStockBySkuFromLots_` of index.js. -/
def getWarehousesStockBySkuFromLots_ (sku : String) (prods : List (String × Int))
    (lots : List Lot) : List WhStock :=
  let s := skuKey_ sku
  if s = "" then []
  else
    let u := getUnitsPerBox prods s
    let upb := if u = 0 then 1 else u
    let m := (lotsQuery s lots).foldl (stockStep upb) []
    (m.filter (fun p => decide (0 < p.2.box) || decide (0 < p.2.piece))).map
      (fun p => ⟨p.1, resolveWarehouseLabel_ p.1, p.2.box, p.2.piece, p.2.amount⟩)

structure SnapDetail where
  code : String
  label : String
  box : ℚ
  piece : ℚ
  amount : ℚ
deriving DecidableEq, Repr

/-- `String(whCode || '').trim().toLowerCase() || 'unspecified'`. -/
def whCodeKey (whCode : String) : String :=
  let c := jsToLower (jsTrim whCode)
  if c = "" then "unspecified" else c

/-- The supabase query filter of `getWarehouseSnapshotDetailsFromLots_`
(also `eq warehouse_code` against the normalised requested code). -/
def snapLotsQuery (s code : String) (lots : List Lot) : List Lot :=
  lots.filter (fun l => decide (l.product_sku = s) && decide (l.warehouse_code = code) &&
    (decide (l.uom = "box") || decide (l.uom = "piece")) && decide (0 < l.qty_left))

/-- `getWarehouseSnapshotDetailsFromLots_` of index.js (the stock
fields; the display-only `name`/`unitCostPiece` fields, which feed no
decision, are not modelled). -/
def getWarehouseSnapshotDetailsFromLots_ (sku : String) (prods : List (String × Int))
    (whCode : String) (lots : List Lot) : SnapDetail :=
  let s := skuKey_ sku
  let code := whCodeKey whCode
  let u := getUnitsPerBox prods s
  let upb := if 0 < u then u else 1
  let acc := (snapLotsQuery s code lots).foldl
    (fun a r => addLot upb a (jsToLower r.uom) r.qty_left r.unit_cost_piece) emptyWhAcc
  ⟨code, resolveWarehouseLabel_ code, acc.box, acc.piece, acc.amount⟩

/-! ## Durable event dedup (index.js) -/

/-- `acquireEventDedup_`: empty id passes; a `23505` uniqueness conflict
drops the event; any other insert failure fails open. -/
def acquireEventDedup_ (eventId : String) (insertError : Option String) : Bool :=
  let id := jsTrim eventId
  if id = "" then true
  else
    match insertError with
    | none => true
    | some code => if code = "23505" then false else true

/-- Insert-if-absent contract of the external `line_event_dedup` table
(spec section 6): a duplicate key yields SQLSTATE 23505 and leaves the
table unchanged. -/
def dedupInsert (store : List String) (id : String) : Option String × List String :=
  if store.contains id then (some "23505", store) else (none, id :: store)

/-- The dedup gate of `handleEvent_` against a healthy store: returns
whether the rest of the handler runs, and the updated store. -/
def handleEventDedupStep (store : List String) (eventId : String) : Bool × List String :=
  let id := jsTrim eventId
  if id = "" then (true, store)
  else
    let r := dedupInsert store id
    (acquireEventDedup_ eventId r.1, r.2)

/-! ## Outbound orchestration (index.js)

The outbound branch of `handleCommandMessage_` and the `out_postback`
branch of `handlePostback_`, up to the point where the external
`fifo_out_and_log` RPC would be invoked; each early `return`-with-reply
is a distinct result constructor. -/

inductive OutResult where
  | formatHint : OutResult
  | lockedReply : OutResult
  | noSkuReply : OutResult
  | noStockReply : OutResult
  | askWarehouse : OutResult
  | insufficient (label : String) (stockBox stockPiece : ℚ) : OutResult
  | ledgerCall (sku wh : String) (outBox outPiece : Nat) : OutResult
deriving DecidableEq, Repr

/-- Warehouse choice: explicit hint, else last-used warehouse if it is
still among the stocked warehouses. -/
def chooseWhForOut (hint : Option String) (lastWh : String) (whList : List WhStock) :
    Option String :=
  match hint with
  | some h => some (getWarehouseCodeForLabel_ h)
  | none =>
    if lastWh ≠ "" ∧ whList.any (fun w => decide (w.code = lastWh)) then some lastWh else none

/-- The pre-mutation sufficiency check and ledger invocation: the two
unit checks are separate and neither converts into the other. -/
def outDecide (prods : List (String × Int)) (lots : List Lot) (sku wh : String)
    (outBox outPiece : Nat) : OutResult :=
  let d := getWarehouseSnapshotDetailsFromLots_ sku prods wh lots
  if 0 < outBox ∧ d.box < (outBox : ℚ) then .insufficient d.label d.box d.piece
  else if 0 < outPiece ∧ d.piece < (outPiece : ℚ) then .insufficient d.label d.box d.piece
  else .ledgerCall sku wh outBox outPiece

/-- The `parsed.type === 'change'` branch of `handleCommandMessage_`. -/
def handleOutMessage (now : Nat) (lock : List (String × Nat))
    (lastSkuM lastWhM : List (String × String)) (prods : List (String × Int))
    (lots : List Lot) (actorKey : String) (outBox outPiece : Nat)
    (whHint : Option String) : OutResult × List (String × Nat) :=
  if outBox = 0 ∧ outPiece = 0 then (.formatHint, lock)
  else if isOutLocked_ now lock actorKey then (.lockedReply, lock)
  else
    let lock2 := setOutLock_ now lock actorKey
    let sku := getLastSku_ lastSkuM actorKey
    if sku = "" then (.noSkuReply, lock2)
    else
      let whList := getWarehousesStockBySkuFromLots_ sku prods lots
      if whList = [] then (.noStockReply, lock2)
      else
        match chooseWhForOut whHint (getLastWh_ lastWhM actorKey) whList with
        | some w => (outDecide prods lots sku w outBox outPiece, lock2)
        | none =>
          if 2 ≤ whList.length then (.askWarehouse, lock2)
          else
            match whList with
            | w0 :: _ => (outDecide prods lots sku w0.code outBox outPiece, lock2)
            | [] => (.noStockReply, lock2)

/-- The `out_postback` branch of `handlePostback_`. -/
def handleOutPostback (now : Nat) (lock : List (String × Nat))
    (lastSkuM : List (String × String)) (prods : List (String × Int)) (lots : List Lot)
    (actorKey pbSku pbWh : String) (pbBox pbPiece : Nat) : OutResult × List (String × Nat) :=
  let sku := if pbSku ≠ "" then pbSku else getLastSku_ lastSkuM actorKey
  if sku = "" then (.noSkuReply, lock)
  else if isOutLocked_ now lock actorKey then (.lockedReply, lock)
  else
    let lock2 := setOutLock_ now lock actorKey
    let wh := getWarehouseCodeForLabel_ pbWh
    (outDecide prods lots sku wh pbBox pbPiece, lock2)

/-! ## Spec-side warehouse sums (section 4.5 of the specification) -/

def specBoxLots (s wh : String) (lots : List Lot) : List Lot :=
  lots.filter (fun l => decide (l.product_sku = s) && decide (normWh l.warehouse_code = wh) &&
    decide (l.uom = "box") && decide (0 < l.qty_left))

def specPieceLots (s wh : String) (lots : List Lot) : List Lot :=
  lots.filter (fun l => decide (l.product_sku = s) && decide (normWh l.warehouse_code = wh) &&
    decide (l.uom = "piece") && decide (0 < l.qty_left))

/-- Sum of remaining quantity over the warehouse's box lots. -/
def specBoxSum (s wh : String) (lots : List Lot) : ℚ :=
  ((specBoxLots s wh lots).map (fun l => l.qty_left)).sum

/-- Sum of remaining quantity over the warehouse's piece lots. -/
def specPieceSum (s wh : String) (lots : List Lot) : ℚ :=
  ((specPieceLots s wh lots).map (fun l => l.qty_left)).sum

/-- Piece-lot value plus box-lot value scaled by units-per-box. -/
def specAmountSum (s wh : String) (upb : Int) (lots : List Lot) : ℚ :=
  ((specPieceLots s wh lots).map (fun l => l.qty_left * l.unit_cost_piece)).sum +
  ((specBoxLots s wh lots).map (fun l => l.qty_left * (upb : ℚ) * l.unit_cost_piece)).sum

/-- Per-row box contribution of the grouping loop, keyed by normalised
warehouse. -/
def kBox (wh : String) (l : Lot) : ℚ :=
  if normWh l.warehouse_code = wh ∧ jsToLower l.uom = "box" then l.qty_left else 0

def kPiece (wh : String) (l : Lot) : ℚ :=
  if normWh l.warehouse_code = wh ∧ jsToLower l.uom = "piece" then l.qty_left else 0

def kAmt (wh : String) (upb : Int) (l : Lot) : ℚ :=
  if normWh l.warehouse_code = wh then
    (if jsToLower l.uom = "box" then l.qty_left * (upb : ℚ) * l.unit_cost_piece
     else if jsToLower l.uom = "piece" then l.qty_left * l.unit_cost_piece
     else 0)
  else 0

/-! ## Association-list lemmas -/

theorem lookupS_mapUpd {α : Type} (m : List (String × α)) (k k2 : String) (v : α) :
    lookupS (mapUpd m k v) k2 = if k = k2 then some v else lookupS m k2 := by
  induction m with
  | nil => simp [mapUpd, lookupS]
  | cons p r ih =>
    obtain ⟨k3, v3⟩ := p
    simp only [mapUpd]
    by_cases h3 : k3 = k
    · subst h3
      by_cases h : k3 = k2 <;> simp [lookupS, h]
    · rw [if_neg h3]
      by_cases h : k3 = k2
      · subst h
        have hne : k ≠ k3 := fun he => h3 he.symm
        simp [lookupS, if_neg hne]
      · simp only [lookupS, if_neg h, ih]

theorem keys_mapUpd {α : Type} (m : List (String × α)) (k : String) (v : α) :
    (mapUpd m k v).map Prod.fst =
      if k ∈ m.map Prod.fst then m.map Prod.fst else m.map Prod.fst ++ [k] := by
  induction m with
  | nil => simp [mapUpd]
  | cons p r ih =>
    obtain ⟨k3, v3⟩ := p
    simp only [mapUpd]
    by_cases h3 : k3 = k
    · subst h3
      simp
    · have hne : k ≠ k3 := fun he => h3 he.symm
      rw [if_neg h3]
      simp only [List.map_cons, ih, List.mem_cons]
      by_cases h : k ∈ r.map Prod.fst
      · simp [h]
      · simp [h, hne]

theorem nodup_keys_mapUpd {α : Type} (m : List (String × α)) (k : String) (v : α)
    (h : (m.map Prod.fst).Nodup) : ((mapUpd m k v).map Prod.fst).Nodup := by
  rw [keys_mapUpd]
  by_cases hk : k ∈ m.map Prod.fst
  · simpa [hk] using h
  · rw [if_neg hk]
    refine List.Nodup.append h (List.nodup_singleton k) ?_
    intro a ha hb
    rw [List.mem_singleton] at hb
    exact hk (hb ▸ ha)

theorem mem_of_lookupS {α : Type} (m : List (String × α)) (k : String) (v : α)
    (h : lookupS m k = some v) : (k, v) ∈ m := by
  induction m with
  | nil => simp [lookupS] at h
  | cons p r ih =>
    obtain ⟨k3, v3⟩ := p
    by_cases h3 : k3 = k
    · subst h3
      rw [lookupS, if_pos rfl, Option.some.injEq] at h
      subst h
      exact List.mem_cons_self _ _
    · rw [lookupS, if_neg h3] at h
      exact List.mem_cons_of_mem _ (ih h)

theorem lookupS_of_mem {α : Type} (m : List (String × α)) (k : String) (v : α)
    (hnd : (m.map Prod.fst).Nodup) (h : (k, v) ∈ m) : lookupS m k = some v := by
  induction m with
  | nil => simp at h
  | cons p r ih =>
    obtain ⟨k3, v3⟩ := p
    simp only [List.map_cons, List.nodup_cons] at hnd
    rcases List.mem_cons.mp h with h1 | h1
    · rw [Prod.mk.injEq] at h1
      obtain ⟨hk, hv⟩ := h1
      subst hk
      subst hv
      rw [lookupS, if_pos rfl]
    · have hne : k3 ≠ k := by
        intro he
        subst he
        exact hnd.1 (List.mem_map_of_mem Prod.fst h1)
      rw [lookupS, if_neg hne]
      exact ih hnd.2 h1

theorem addLot_box (upb : Int) (a : WhAcc) (u : String) (q c : ℚ) :
    (addLot upb a u q c).box = a.box + (if u = "box" then q else 0) := by
  rw [addLot]
  by_cases hb : u = "box"
  · simp [hb]
  · rw [if_neg hb, if_neg hb]
    by_cases hp : u = "piece" <;> simp [hp]

theorem addLot_piece (upb : Int) (a : WhAcc) (u : String) (q c : ℚ) :
    (addLot upb a u q c).piece = a.piece + (if u = "piece" then q else 0) := by
  rw [addLot]
  by_cases hb : u = "box"
  · have : u ≠ "piece" := by simp [hb]
    simp [hb, this]
  · rw [if_neg hb]
    by_cases hp : u = "piece" <;> simp [hp]

theorem addLot_amount (upb : Int) (a : WhAcc) (u : String) (q c : ℚ) :
    (addLot upb a u q c).amount =
      a.amount + (if u = "box" then q * (upb : ℚ) * c else if u = "piece" then q * c else 0) := by
  rw [addLot]
  by_cases hb : u = "box"
  · simp [hb]
  · rw [if_neg hb, if_neg hb]
    by_cases hp : u = "piece" <;> simp [hp]

theorem lookupS_stockStep (upb : Int) (m : List (String × WhAcc)) (r : Lot) (wh : String) :
    lookupS (stockStep upb m r) wh =
      if normWh r.warehouse_code = wh then
        some (addLot upb (mapGetD m wh emptyWhAcc) (jsToLower r.uom) r.qty_left r.unit_cost_piece)
      else lookupS m wh := by
  by_cases hw : normWh r.warehouse_code = wh
  · simp [stockStep, lookupS_mapUpd, hw]
  · simp [stockStep, lookupS_mapUpd, hw]

/-- Value of the grouping `Map` after the aggregation loop: the lookup
of a warehouse key is the componentwise sum of that warehouse's row
contributions. -/
theorem lookupS_stockFold (upb : Int) (rows : List Lot) :
    ∀ (m : List (String × WhAcc)) (wh : String),
    lookupS (rows.foldl (stockStep upb) m) wh =
      (match lookupS m wh with
       | some a =>
         some ⟨a.box + (rows.map (kBox wh)).sum, a.piece + (rows.map (kPiece wh)).sum,
           a.amount + (rows.map (kAmt wh upb)).sum⟩
       | none =>
         if rows.any (fun l => decide (normWh l.warehouse_code = wh)) then
           some ⟨(rows.map (kBox wh)).sum, (rows.map (kPiece wh)).sum,
             (rows.map (kAmt wh upb)).sum⟩
         else none) := by
  induction rows with
  | nil =>
    intro m wh
    cases h : lookupS m wh with
    | none => simp [h]
    | some a => simp [h]
  | cons r rest ih =>
    intro m wh
    rw [List.foldl_cons, ih, lookupS_stockStep]
    by_cases hw : normWh r.warehouse_code = wh
    · rw [if_pos hw]
      have hkb : kBox wh r = (if jsToLower r.uom = "box" then r.qty_left else 0) := by
        simp [kBox, hw]
      have hkp : kPiece wh r = (if jsToLower r.uom = "piece" then r.qty_left else 0) := by
        simp [kPiece, hw]
      have hka : kAmt wh upb r =
          (if jsToLower r.uom = "box" then r.qty_left * (upb : ℚ) * r.unit_cost_piece
           else if jsToLower r.uom = "piece" then r.qty_left * r.unit_cost_piece else 0) := by
        simp [kAmt, hw]
      cases h : lookupS m wh with
      | some a =>
        simp only [h, mapGetD, Option.getD_some, List.map_cons, List.sum_cons,
          addLot_box, addLot_piece, addLot_amount, hkb, hkp, hka, Option.some.injEq,
          WhAcc.mk.injEq]
        refine ⟨by ring, by ring, by ring⟩
      | none =>
        simp only [h, mapGetD, Option.getD_none, List.any_cons, hw, decide_True,
          Bool.true_or, if_pos, List.map_cons, List.sum_cons, addLot_box, addLot_piece,
          addLot_amount, hkb, hkp, hka, emptyWhAcc, Option.some.injEq, WhAcc.mk.injEq]
        refine ⟨by ring, by ring, by ring⟩
    · rw [if_neg hw]
      have hkb : kBox wh r = 0 := by simp [kBox, hw]
      have hkp : kPiece wh r = 0 := by simp [kPiece, hw]
      have hka : kAmt wh upb r = 0 := by simp [kAmt, hw]
      cases h : lookupS m wh with
      | some a => simp [h, hkb, hkp, hka]
      | none => simp [h, hkb, hkp, hka, hw]

theorem nodup_keys_stockFold (upb : Int) (rows : List Lot) :
    ∀ m : List (String × WhAcc), (m.map Prod.fst).Nodup →
      ((rows.foldl (stockStep upb) m).map Prod.fst).Nodup := by
  induction rows with
  | nil => intro m hm; simpa using hm
  | cons r rest ih =>
    intro m hm
    rw [List.foldl_cons]
    exact ih _ (by simpa [stockStep] using nodup_keys_mapUpd _ _ _ hm)

theorem sum_map_filter_ite (p : Lot → Bool) (f : Lot → ℚ) (lots : List Lot) :
    ((lots.filter p).map f).sum = (lots.map (fun l => if p l then f l else 0)).sum := by
  induction lots with
  | nil => simp
  | cons l rest ih =>
    by_cases h : p l
    · simp [List.filter_cons, h, ih]
    · simp [List.filter_cons, h, ih]

theorem sum_map_congrQ (f g : Lot → ℚ) (lots : List Lot) (h : ∀ l ∈ lots, f l = g l) :
    (lots.map f).sum = (lots.map g).sum := by
  induction lots with
  | nil => simp
  | cons l rest ih =>
    simp only [List.map_cons, List.sum_cons]
    rw [h l (List.mem_cons_self _ _), ih fun x hx => h x (List.mem_cons_of_mem _ hx)]

theorem sum_map_addQ (f g : Lot → ℚ) (lots : List Lot) :
    (lots.map (fun l => f l + g l)).sum = (lots.map f).sum + (lots.map g).sum := by
  induction lots with
  | nil => simp
  | cons l rest ih =>
    simp only [List.map_cons, List.sum_cons, ih]
    ring

theorem jsToLower_box : jsToLower "box" = "box" := by decide

theorem jsToLower_piece : jsToLower "piece" = "piece" := by decide

theorem kBox_bridge (s wh : String) (lots : List Lot) :
    ((lotsQuery s lots).map (kBox wh)).sum = specBoxSum s wh lots := by
  rw [lotsQuery, specBoxSum, specBoxLots, sum_map_filter_ite, sum_map_filter_ite]
  apply sum_map_congrQ
  intro l _
  by_cases hs : l.product_sku = s
  · by_cases hq : (0 : ℚ) < l.qty_left
    · by_cases hbx : l.uom = "box"
      · by_cases hw : normWh l.warehouse_code = wh
        · simp [lotMatchesSku, kBox, hs, hq, hbx, hw, jsToLower_box]
        · simp [lotMatchesSku, kBox, hs, hq, hbx, hw, jsToLower_box]
      · by_cases hpc : l.uom = "piece"
        · have hne : ("piece" : String) ≠ "box" := by decide
          simp [lotMatchesSku, kBox, hs, hq, hbx, hpc, jsToLower_piece, hne]
        · simp [lotMatchesSku, kBox, hs, hq, hbx, hpc]
    · simp [lotMatchesSku, kBox, hq]
  · simp [lotMatchesSku, kBox, hs]

theorem kPiece_bridge (s wh : String) (lots : List Lot) :
    ((lotsQuery s lots).map (kPiece wh)).sum = specPieceSum s wh lots := by
  rw [lotsQuery, specPieceSum, specPieceLots, sum_map_filter_ite, sum_map_filter_ite]
  apply sum_map_congrQ
  intro l _
  by_cases hs : l.product_sku = s
  · by_cases hq : (0 : ℚ) < l.qty_left
    · by_cases hpc : l.uom = "piece"
      · by_cases hw : normWh l.warehouse_code = wh
        · simp [lotMatchesSku, kPiece, hs, hq, hpc, hw, jsToLower_piece]
        · simp [lotMatchesSku, kPiece, hs, hq, hpc, hw, jsToLower_piece]
      · by_cases hbx : l.uom = "box"
        · have hne : ("box" : String) ≠ "piece" := by decide
          simp [lotMatchesSku, kPiece, hs, hq, hbx, hpc, jsToLower_box, hne]
        · simp [lotMatchesSku, kPiece, hs, hq, hbx, hpc]
    · simp [lotMatchesSku, kPiece, hq]
  · simp [lotMatchesSku, kPiece, hs]

theorem kAmt_bridge (s wh : String) (upb : Int) (lots : List Lot) :
    ((lotsQuery s lots).map (kAmt wh upb)).sum = specAmountSum s wh upb lots := by
  rw [lotsQuery, sum_map_filter_ite, specAmountSum, specPieceLots, specBoxLots,
    sum_map_filter_ite, sum_map_filter_ite, ← sum_map_addQ]
  apply sum_map_congrQ
  intro l _
  by_cases hs : l.product_sku = s
  · by_cases hq : (0 : ℚ) < l.qty_left
    · by_cases hbx : l.uom = "box"
      · by_cases hw : normWh l.warehouse_code = wh
        · have hne : ("box" : String) ≠ "piece" := by decide
          simp [lotMatchesSku, kAmt, hs, hq, hbx, hw, jsToLower_box, hne]
        · simp [lotMatchesSku, kAmt, hs, hq, hbx, hw]
      · by_cases hpc : l.uom = "piece"
        · by_cases hw : normWh l.warehouse_code = wh
          · have hne : ("piece" : String) ≠ "box" := by decide
            simp [lotMatchesSku, kAmt, hs, hq, hbx, hpc, hw, jsToLower_piece, hne]
          · simp [lotMatchesSku, kAmt, hs, hq, hbx, hpc, hw]
        · simp [lotMatchesSku, kAmt, hs, hq, hbx, hpc]
    · simp [lotMatchesSku, kAmt, hq]
  · simp [lotMatchesSku, kAmt, hs]

theorem snapFold_fields (upb : Int) (rows : List Lot) :
    ∀ a : WhAcc,
    rows.foldl (fun a r => addLot upb a (jsToLower r.uom) r.qty_left r.unit_cost_piece) a =
      ⟨a.box + (rows.map (fun r => if jsToLower r.uom = "box" then r.qty_left else 0)).sum,
       a.piece + (rows.map (fun r => if jsToLower r.uom = "piece" then r.qty_left else 0)).sum,
       a.amount + (rows.map (fun r =>
         if jsToLower r.uom = "box" then r.qty_left * (upb : ℚ) * r.unit_cost_piece
         else if jsToLower r.uom = "piece" then r.qty_left * r.unit_cost_piece
         else 0)).sum⟩ := by
  induction rows with
  | nil =>
    intro a
    cases a
    simp
  | cons r rest ih =>
    intro a
    rw [List.foldl_cons, ih]
    simp only [List.map_cons, List.sum_cons, addLot_box, addLot_piece, addLot_amount,
      WhAcc.mk.injEq]
    refine ⟨by ring, by ring, by ring⟩

/-- The freshly computed warehouse snapshot never reports negative
stock: it sums `qty_left` over rows the query restricts to
`qty_left > 0`. -/
theorem snapshot_nonneg (sku : String) (prods : List (String × Int)) (whCode : String)
    (lots : List Lot) :
    0 ≤ (getWarehouseSnapshotDetailsFromLots_ sku prods whCode lots).box ∧
    0 ≤ (getWarehouseSnapshotDetailsFromLots_ sku prods whCode lots).piece := by
  simp only [getWarehouseSnapshotDetailsFromLots_, snapFold_fields, zero_add, emptyWhAcc]
  constructor
  · apply List.sum_nonneg
    intro x hx
    obtain ⟨r, hr, rfl⟩ := List.mem_map.mp hx
    by_cases h : jsToLower r.uom = "box"
    · rw [if_pos h]
      rw [snapLotsQuery, List.mem_filter] at hr
      have := hr.2
      simp only [Bool.and_eq_true, decide_eq_true_eq] at this
      exact le_of_lt this.2
    · rw [if_neg h]
  · apply List.sum_nonneg
    intro x hx
    obtain ⟨r, hr, rfl⟩ := List.mem_map.mp hx
    by_cases h : jsToLower r.uom = "piece"
    · rw [if_pos h]
      rw [snapLotsQuery, List.mem_filter] at hr
      have := hr.2
      simp only [Bool.and_eq_true, decide_eq_true_eq] at this
      exact le_of_lt this.2
    · rw [if_neg h]

theorem sum_map_zeroQ (f : Lot → ℚ) (lots : List Lot) (h : ∀ l ∈ lots, f l = 0) :
    (lots.map f).sum = 0 := by
  induction lots with
  | nil => simp
  | cons l rest ih =>
    simp only [List.map_cons, List.sum_cons]
    rw [h l (List.mem_cons_self _ _), ih fun x hx => h x (List.mem_cons_of_mem _ hx), add_zero]

/-- C2: an inbound event carrying an identifier is dropped iff the
durable dedup insert fails with the uniqueness-conflict code 23505 (any
other failure fails open), and replaying the same identifier twice
against the durable store runs the downstream handler — hence its single
ledger mutation attempt — exactly once. -/
theorem c2_dedup_drop_iff :
    (∀ (eventId : String) (err : Option String), jsTrim eventId ≠ "" →
      (acquireEventDedup_ eventId err = false ↔ err = some "23505")) ∧
    (∀ (store : List String) (eventId : String), jsTrim eventId ≠ "" →
      store.contains (jsTrim eventId) = false →
      (handleEventDedupStep store eventId).1 = true ∧
      (handleEventDedupStep (handleEventDedupStep store eventId).2 eventId).1 = false ∧
      ((if (handleEventDedupStep store eventId).1 then 1 else 0) +
        (if (handleEventDedupStep (handleEventDedupStep store eventId).2 eventId).1 then 1
         else 0)) = 1) := by
  constructor
  · intro eventId err hid
    simp only [acquireEventDedup_, if_neg hid]
    cases err with
    | none => simp
    | some code =>
      by_cases hc : code = "23505"
      · simp [hc]
      · simp [hc]
  · intro store eventId hid hfresh
    have h1 : handleEventDedupStep store eventId = (true, jsTrim eventId :: store) := by
      simp only [handleEventDedupStep, if_neg hid, dedupInsert, hfresh, Bool.false_eq_true,
        if_false, acquireEventDedup_]
    have h2 : (handleEventDedupStep (jsTrim eventId :: store) eventId).1 = false := by
      have hc : (jsTrim eventId :: store).contains (jsTrim eventId) = true := by
        simp [List.contains_cons]
      simp only [handleEventDedupStep, if_neg hid, dedupInsert, hc, if_true, acquireEventDedup_]
    rw [h1]
    exact ⟨rfl, by simpa using h2, by simp [h2]⟩

/-- C2 witness: a fresh identifier against an empty store. -/
theorem c2_dedup_drop_iff_witness :
    (acquireEventDedup_ "evt-1" (some "23505") = false ↔ (some "23505" : Option String) = some "23505") ∧
    (handleEventDedupStep [] "evt-1").1 = true ∧
    (handleEventDedupStep (handleEventDedupStep [] "evt-1").2 "evt-1").1 = false ∧
    ((if (handleEventDedupStep [] "evt-1").1 then 1 else 0) +
      (if (handleEventDedupStep (handleEventDedupStep [] "evt-1").2 "evt-1").1 then 1 else 0)) = 1 :=
  ⟨c2_dedup_drop_iff.1 "evt-1" (some "23505") (by decide),
   c2_dedup_drop_iff.2 [] "evt-1" (by decide) (by decide)⟩

/-- C6 counterexample: the claim says an input containing a box token
plus a bare trailing integer does not get that integer as a piece
quantity; but `parseCommand` parses `出3箱2` — box token `3箱` present,
bare trailing `2` — to box 3, piece 2: the bare integer is assigned as a
piece quantity despite the box token. -/
theorem c6_counterexample : parseCommand "出3箱2" = some (.change 3 2 none) := by decide

/-- C6 (amended): in `parseCommand` a bare trailing integer with no unit
becomes the piece quantity whenever no labelled piece token is present,
regardless of box tokens (`出5` ⇒ box 0, piece 5; `出3箱2` ⇒ box 3,
piece 2; `出3箱` ⇒ box 3, piece 0): the zero-box-token condition gates
only the no-unit digit-stripping fallback.  `parseOutCommand` never
accepts a bare integer as a token at all (`出5` ⇒ `no_tokens`). -/
theorem c6_bare_tail :
    parseCommand "出5" = some (.change 0 5 none) ∧
    parseCommand "出3箱2" = some (.change 3 2 none) ∧
    parseCommand "出3箱" = some (.change 3 0 none) ∧
    parseOutCommand "出5" = .err "no_tokens" (some "出5") := by decide

/-- C7: the claim (and the parser file's own header comment, which lists
`出3箱2件`, `出3箱`, `出2件` as supported) says well-formed
integer+unit inputs parse with per-class sums.  The code's token regex
ends in an ASCII word boundary, which never holds after a CJK unit
character at end of input or before a non-ASCII-word character, so
`出2件`/`出3箱` fail with `no_tokens` and `出3箱2件` fails with
`has_extra_text`; only ASCII units (`pc`/`pcs`) or CJK units immediately
followed by an ASCII word character are accepted. -/
theorem c7_word_boundary_divergence :
    parseOutCommand "出2件" = .err "no_tokens" (some "出2件") ∧
    parseOutCommand "出3箱" = .err "no_tokens" (some "出3箱") ∧
    parseOutCommand "出3箱2件" = .err "has_extra_text" (some "出3箱2件") ∧
    parseOutCommand "出3pcs" = .ok 0 3 "出 3件" ∧
    parseOutCommand "出3箱2pcs" = .ok 3 2 "出 3箱 2件" := by decide

/-- C9 counterexample: `出` parses successfully as an outbound change
with box = 0 and piece = 0, so "never both zero after a successful
parse" fails for `parseCommand` (the both-zero case is only rejected
later, by the handler's guard). -/
theorem c9_counterexample : parseCommand "出" = some (.change 0 0 none) := by decide

/-- C10 counterexample: the selection state carries no timestamp and the
read consults no clock, so a state written at time T is returned — not
treated as absent — at every later read, in particular at T + 31
minutes; here the written SKU is read back verbatim while an actor with
no entry reads the empty marker. -/
theorem c10_counterexample :
    getLastSku_ (setLastSku_ [] "user1" "A564") "user1" = "a564" ∧
    getLastSku_ [] "user1" = "" := by decide

/-- C10 (amended): the last-SKU / last-warehouse selection caches have
no TTL: a write for a non-empty actor key installs a durable entry
holding the canonicalised value, reads consult only the stored entry
(no clock appears anywhere), and no operation deletes an entry — so the
state survives unchanged at T + 31 minutes, until overwritten or the
process restarts. -/
theorem c10_no_ttl (m mw : List (String × String)) (k s w : String) (hk : k ≠ "") :
    lookupS (setLastSku_ m k s) k = some (skuKey_ s) ∧
    lookupS (setLastWh_ mw k w) k =
      some (if jsToLower (jsTrim w) = "" then "unspecified" else jsToLower (jsTrim w)) := by
  constructor
  · rw [setLastSku_, if_neg hk, lookupS_mapUpd, if_pos rfl]
  · rw [setLastWh_, if_neg hk, lookupS_mapUpd, if_pos rfl]

/-- C10 witness. -/
theorem c10_no_ttl_witness :
    lookupS (setLastSku_ [] "user1" "A564") "user1" = some (skuKey_ "A564") ∧
    lookupS (setLastWh_ [] "user1" "Main") "user1" =
      some (if jsToLower (jsTrim "Main") = "" then "unspecified" else jsToLower (jsTrim "Main")) :=
  c10_no_ttl [] [] "user1" "A564" "Main" (by decide)

theorem handleOutMessage_lock_cases (now : Nat) (lock : List (String × Nat))
    (lastSkuM lastWhM : List (String × String)) (prods : List (String × Int)) (lots : List Lot)
    (actorKey : String) (outBox outPiece : Nat) (whHint : Option String) :
    (handleOutMessage now lock lastSkuM lastWhM prods lots actorKey outBox outPiece whHint).2 = lock ∨
    (handleOutMessage now lock lastSkuM lastWhM prods lots actorKey outBox outPiece whHint).2 =
      setOutLock_ now lock actorKey := by
  by_cases h1 : outBox = 0 ∧ outPiece = 0
  · left
    simp [handleOutMessage, h1]
  · by_cases h2 : isOutLocked_ now lock actorKey
    · left
      simp [handleOutMessage, h1, h2]
    · right
      simp only [handleOutMessage, if_neg h1, h2, Bool.false_eq_true, if_false]
      split
      · rfl
      · split
        · rfl
        · split
          · rfl
          · split
            · rfl
            · split <;> rfl

theorem handleOutPostback_lock_cases (now : Nat) (lock : List (String × Nat))
    (lastSkuM : List (String × String)) (prods : List (String × Int)) (lots : List Lot)
    (actorKey pbSku pbWh : String) (pbBox pbPiece : Nat) :
    (handleOutPostback now lock lastSkuM prods lots actorKey pbSku pbWh pbBox pbPiece).2 = lock ∨
    (handleOutPostback now lock lastSkuM prods lots actorKey pbSku pbWh pbBox pbPiece).2 =
      setOutLock_ now lock actorKey := by
  by_cases hp : pbSku = ""
  · by_cases h0 : getLastSku_ lastSkuM actorKey = ""
    · left
      simp [handleOutPostback, hp, h0]
    · by_cases h2 : isOutLocked_ now lock actorKey
      · left
        simp [handleOutPostback, hp, h0, h2]
      · right
        simp [handleOutPostback, hp, h0, h2]
  · by_cases h2 : isOutLocked_ now lock actorKey
    · left
      simp [handleOutPostback, hp, h2]
    · right
      simp [handleOutPostback, hp, h2]

/-- C3: while an actor's outbound lock is unexpired, an outbound attempt
by that actor (a nonzero-quantity out command, or an out postback with a
resolved SKU) is answered with the retry-shortly reply and the flow
never reaches the ledger call, leaving the lock map untouched; no code
path deletes a lock entry — a handler run only ever keeps or overwrites
entries — an entry's expiry is set to acquisition time plus 5000 ms, and
an expired entry is merely bypassed by the time comparison, not
removed. -/
theorem c3_out_lock (now untl : Nat) (lock : List (String × Nat)) (actorKey : String)
    (hl : lookupS lock actorKey = some untl) (hnow : now < untl) :
    (∀ (lastSkuM lastWhM : List (String × String)) (prods : List (String × Int)) (lots : List Lot)
      (outBox outPiece : Nat) (whHint : Option String), ¬(outBox = 0 ∧ outPiece = 0) →
      handleOutMessage now lock lastSkuM lastWhM prods lots actorKey outBox outPiece whHint =
        (.lockedReply, lock)) ∧
    (∀ (lastSkuM : List (String × String)) (prods : List (String × Int)) (lots : List Lot)
      (pbSku pbWh : String) (pbBox pbPiece : Nat),
      (if pbSku ≠ "" then pbSku else getLastSku_ lastSkuM actorKey) ≠ "" →
      handleOutPostback now lock lastSkuM prods lots actorKey pbSku pbWh pbBox pbPiece =
        (.lockedReply, lock)) ∧
    (∀ (lastSkuM lastWhM : List (String × String)) (prods : List (String × Int)) (lots : List Lot)
      (ak2 : String) (outBox outPiece : Nat) (whHint : Option String) (k : String) (u : Nat),
      lookupS lock k = some u →
      ∃ u2, lookupS (handleOutMessage now lock lastSkuM lastWhM prods lots ak2 outBox outPiece
        whHint).2 k = some u2) ∧
    (∀ (lastSkuM : List (String × String)) (prods : List (String × Int)) (lots : List Lot)
      (ak2 pbSku pbWh : String) (pbBox pbPiece : Nat) (k : String) (u : Nat),
      lookupS lock k = some u →
      ∃ u2, lookupS (handleOutPostback now lock lastSkuM prods lots ak2 pbSku pbWh pbBox
        pbPiece).2 k = some u2) ∧
    (∀ (l2 : List (String × Nat)) (t : Nat) (k : String),
      lookupS (setOutLock_ t l2 k) k = some (t + OUT_LOCK_MS)) ∧
    (∀ (l2 : List (String × Nat)) (k : String) (u : Nat),
      lookupS l2 k = some u → u ≤ now → isOutLocked_ now l2 k = false) := by
  have hlt : isOutLocked_ now lock actorKey = true := by
    rw [isOutLocked_, mapGetD, hl, Option.getD_some]
    exact decide_eq_true hnow
  refine ⟨?_, ?_, ?_, ?_, ?_, ?_⟩
  · intro lastSkuM lastWhM prods lots outBox outPiece whHint hq
    simp [handleOutMessage, hq, hlt]
  · intro lastSkuM prods lots pbSku pbWh pbBox pbPiece hsku
    rw [ite_not] at hsku
    simp [handleOutPostback, hsku, hlt]
  · intro lastSkuM lastWhM prods lots ak2 outBox outPiece whHint k u hk
    rcases handleOutMessage_lock_cases now lock lastSkuM lastWhM prods lots ak2 outBox outPiece
      whHint with h | h
    · refine ⟨u, ?_⟩
      rw [h]
      exact hk
    · rw [h, setOutLock_, lookupS_mapUpd]
      by_cases hak : ak2 = k
      · exact ⟨now + OUT_LOCK_MS, by rw [if_pos hak]⟩
      · refine ⟨u, ?_⟩
        rw [if_neg hak]
        exact hk
  · intro lastSkuM prods lots ak2 pbSku pbWh pbBox pbPiece k u hk
    rcases handleOutPostback_lock_cases now lock lastSkuM prods lots ak2 pbSku pbWh pbBox
      pbPiece with h | h
    · refine ⟨u, ?_⟩
      rw [h]
      exact hk
    · rw [h, setOutLock_, lookupS_mapUpd]
      by_cases hak : ak2 = k
      · exact ⟨now + OUT_LOCK_MS, by rw [if_pos hak]⟩
      · refine ⟨u, ?_⟩
        rw [if_neg hak]
        exact hk
  · intro l2 t k
    rw [setOutLock_, lookupS_mapUpd, if_pos rfl]
  · intro l2 k u hu hle
    rw [isOutLocked_, mapGetD, hu, Option.getD_some]
    exact decide_eq_false (not_lt.mpr hle)

/-- C3 witness: a lock for actor `u` expiring at 5000 ms, attempts at
1000 ms. -/
theorem c3_out_lock_witness :
    handleOutMessage 1000 [("u", 5000)] [] [] [] [] "u" 1 0 none =
      (.lockedReply, [("u", 5000)]) ∧
    handleOutPostback 1000 [("u", 5000)] [] [] [] "u" "a564" "main" 1 0 =
      (.lockedReply, [("u", 5000)]) :=
  ⟨(c3_out_lock 1000 5000 [("u", 5000)] "u" (by decide) (by decide)).1 [] [] [] [] 1 0 none
      (by decide),
   (c3_out_lock 1000 5000 [("u", 5000)] "u" (by decide) (by decide)).2.1 [] [] [] "a564" "main"
      1 0 (by decide)⟩

/-- C4: a nonzero outbound command from an actor with no resolved SKU is
answered with the select-a-product-first reply and never reaches the
ledger call, in both the free-text flow and the postback flow. -/
theorem c4_no_sku_reject (now : Nat) (lock : List (String × Nat))
    (lastSkuM lastWhM : List (String × String)) (prods : List (String × Int)) (lots : List Lot)
    (actorKey : String) (outBox outPiece : Nat) (whHint : Option String)
    (hq : ¬(outBox = 0 ∧ outPiece = 0))
    (hlock : isOutLocked_ now lock actorKey = false)
    (hsku : getLastSku_ lastSkuM actorKey = "") :
    handleOutMessage now lock lastSkuM lastWhM prods lots actorKey outBox outPiece whHint =
      (.noSkuReply, setOutLock_ now lock actorKey) ∧
    (∀ s w b p, (handleOutMessage now lock lastSkuM lastWhM prods lots actorKey outBox outPiece
      whHint).1 ≠ .ledgerCall s w b p) ∧
    (∀ (pbWh : String) (pbBox pbPiece : Nat),
      handleOutPostback now lock lastSkuM prods lots actorKey "" pbWh pbBox pbPiece =
        (.noSkuReply, lock) ∧
      ∀ s w b p, (handleOutPostback now lock lastSkuM prods lots actorKey "" pbWh pbBox
        pbPiece).1 ≠ .ledgerCall s w b p) := by
  have hmsg : handleOutMessage now lock lastSkuM lastWhM prods lots actorKey outBox outPiece
      whHint = (.noSkuReply, setOutLock_ now lock actorKey) := by
    simp [handleOutMessage, hq, hlock, hsku]
  have hpb : ∀ (pbWh : String) (pbBox pbPiece : Nat),
      handleOutPostback now lock lastSkuM prods lots actorKey "" pbWh pbBox pbPiece =
        (.noSkuReply, lock) := by
    intro pbWh pbBox pbPiece
    simp [handleOutPostback, hsku]
  refine ⟨hmsg, ?_, ?_⟩
  · intro s w b p
    rw [hmsg]
    simp
  · intro pbWh pbBox pbPiece
    refine ⟨hpb pbWh pbBox pbPiece, ?_⟩
    intro s w b p
    rw [hpb pbWh pbBox pbPiece]
    simp

/-- C4 witness: `出3箱` with an empty last-SKU cache. -/
theorem c4_no_sku_reject_witness :
    handleOutMessage 0 [] [] [] [] [] "u" 3 0 none = (.noSkuReply, setOutLock_ 0 [] "u") ∧
    handleOutPostback 0 [] [] [] [] "u" "" "main" 3 0 = (.noSkuReply, []) :=
  ⟨(c4_no_sku_reject 0 [] [] [] [] [] "u" 3 0 none (by decide) (by decide) (by decide)).1,
   ((c4_no_sku_reject 0 [] [] [] [] [] "u" 3 0 none (by decide) (by decide) (by decide)).2.2
     "main" 3 0).1⟩

theorem outDecide_insufficient (prods : List (String × Int)) (lots : List Lot) (sku wh : String)
    (outBox outPiece : Nat)
    (hex : (getWarehouseSnapshotDetailsFromLots_ sku prods wh lots).box < (outBox : ℚ) ∨
      (getWarehouseSnapshotDetailsFromLots_ sku prods wh lots).piece < (outPiece : ℚ)) :
    outDecide prods lots sku wh outBox outPiece =
      .insufficient (getWarehouseSnapshotDetailsFromLots_ sku prods wh lots).label
        (getWarehouseSnapshotDetailsFromLots_ sku prods wh lots).box
        (getWarehouseSnapshotDetailsFromLots_ sku prods wh lots).piece := by
  have hnn := snapshot_nonneg sku prods wh lots
  rw [outDecide]
  rcases hex with hb | hp
  · have hbox : 0 < outBox := by
      rcases Nat.eq_zero_or_pos outBox with h0 | h1
      · subst h0
        simp only [Nat.cast_zero] at hb
        exact absurd hb (not_lt.mpr hnn.1)
      · exact h1
    rw [if_pos ⟨hbox, hb⟩]
  · by_cases hb2 : 0 < outBox ∧
      (getWarehouseSnapshotDetailsFromLots_ sku prods wh lots).box < (outBox : ℚ)
    · rw [if_pos hb2]
    · have hpiece : 0 < outPiece := by
        rcases Nat.eq_zero_or_pos outPiece with h0 | h1
        · subst h0
          simp only [Nat.cast_zero] at hp
          exact absurd hp (not_lt.mpr hnn.2)
        · exact h1
      rw [if_neg hb2, if_pos ⟨hpiece, hp⟩]

theorem outDecide_ledger (prods : List (String × Int)) (lots : List Lot) (sku wh : String)
    (outBox outPiece : Nat)
    (hb : (outBox : ℚ) ≤ (getWarehouseSnapshotDetailsFromLots_ sku prods wh lots).box)
    (hp : (outPiece : ℚ) ≤ (getWarehouseSnapshotDetailsFromLots_ sku prods wh lots).piece) :
    outDecide prods lots sku wh outBox outPiece = .ledgerCall sku wh outBox outPiece := by
  rw [outDecide, if_neg, if_neg]
  · rintro ⟨-, h⟩
    exact absurd h (not_lt.mpr hp)
  · rintro ⟨-, h⟩
    exact absurd h (not_lt.mpr hb)

theorem handleOutMessage_decide (now : Nat) (lock : List (String × Nat))
    (lastSkuM lastWhM : List (String × String)) (prods : List (String × Int)) (lots : List Lot)
    (actorKey : String) (outBox outPiece : Nat) (whHint : Option String) (w : String)
    (hq : ¬(outBox = 0 ∧ outPiece = 0))
    (hlock : isOutLocked_ now lock actorKey = false)
    (hsku : getLastSku_ lastSkuM actorKey ≠ "")
    (hne : getWarehousesStockBySkuFromLots_ (getLastSku_ lastSkuM actorKey) prods lots ≠ [])
    (hch : chooseWhForOut whHint (getLastWh_ lastWhM actorKey)
      (getWarehousesStockBySkuFromLots_ (getLastSku_ lastSkuM actorKey) prods lots) = some w) :
    handleOutMessage now lock lastSkuM lastWhM prods lots actorKey outBox outPiece whHint =
      (outDecide prods lots (getLastSku_ lastSkuM actorKey) w outBox outPiece,
        setOutLock_ now lock actorKey) := by
  simp only [handleOutMessage, if_neg hq, hlock, Bool.false_eq_true, if_false, if_neg hsku,
    if_neg hne, hch]

theorem handleOutPostback_decide (now : Nat) (lock : List (String × Nat))
    (lastSkuM : List (String × String)) (prods : List (String × Int)) (lots : List Lot)
    (actorKey pbSku pbWh : String) (pbBox pbPiece : Nat)
    (hsku : (if pbSku = "" then getLastSku_ lastSkuM actorKey else pbSku) ≠ "")
    (hlock : isOutLocked_ now lock actorKey = false) :
    handleOutPostback now lock lastSkuM prods lots actorKey pbSku pbWh pbBox pbPiece =
      (outDecide prods lots (if pbSku = "" then getLastSku_ lastSkuM actorKey else pbSku)
        (getWarehouseCodeForLabel_ pbWh) pbBox pbPiece, setOutLock_ now lock actorKey) := by
  by_cases hp : pbSku = ""
  · subst hp
    have hsku2 : getLastSku_ lastSkuM actorKey ≠ "" := by simpa using hsku
    simp [handleOutPostback, hsku2, hlock]
  · rw [if_neg hp] at hsku
    simp [handleOutPostback, hp, hsku, hlock]

/-- C1: with a resolved SKU and warehouse (nonzero request, lock free,
last SKU set, stocked warehouse list nonempty, warehouse resolved), the
outbound flow of `handleCommandMessage_` replies insufficient-stock and
never invokes `fifo_out_and_log` when the requested box quantity exceeds
the snapshot's box quantity or the requested piece quantity exceeds the
snapshot's piece quantity — the two unit checks are independent and a
surplus in one unit never substitutes for the other — and it invokes the
ledger exactly when neither unit exceeds its own snapshot quantity; the
same holds for the `out_postback` flow of `handlePostback_`. -/
theorem c1_insufficient_guard (now : Nat) (lock : List (String × Nat))
    (lastSkuM lastWhM : List (String × String)) (prods : List (String × Int)) (lots : List Lot)
    (actorKey : String) (outBox outPiece : Nat) (whHint : Option String) (w : String)
    (hq : ¬(outBox = 0 ∧ outPiece = 0))
    (hlock : isOutLocked_ now lock actorKey = false)
    (hsku : getLastSku_ lastSkuM actorKey ≠ "")
    (hne : getWarehousesStockBySkuFromLots_ (getLastSku_ lastSkuM actorKey) prods lots ≠ [])
    (hch : chooseWhForOut whHint (getLastWh_ lastWhM actorKey)
      (getWarehousesStockBySkuFromLots_ (getLastSku_ lastSkuM actorKey) prods lots) = some w) :
    (((getWarehouseSnapshotDetailsFromLots_ (getLastSku_ lastSkuM actorKey) prods w lots).box <
        (outBox : ℚ) ∨
      (getWarehouseSnapshotDetailsFromLots_ (getLastSku_ lastSkuM actorKey) prods w lots).piece <
        (outPiece : ℚ)) →
      (handleOutMessage now lock lastSkuM lastWhM prods lots actorKey outBox outPiece whHint).1 =
        .insufficient
          (getWarehouseSnapshotDetailsFromLots_ (getLastSku_ lastSkuM actorKey) prods w lots).label
          (getWarehouseSnapshotDetailsFromLots_ (getLastSku_ lastSkuM actorKey) prods w lots).box
          (getWarehouseSnapshotDetailsFromLots_ (getLastSku_ lastSkuM actorKey) prods w lots).piece ∧
      ∀ s2 w2 b2 p2, (handleOutMessage now lock lastSkuM lastWhM prods lots actorKey outBox
        outPiece whHint).1 ≠ .ledgerCall s2 w2 b2 p2) ∧
    (((outBox : ℚ) ≤
        (getWarehouseSnapshotDetailsFromLots_ (getLastSku_ lastSkuM actorKey) prods w lots).box ∧
      (outPiece : ℚ) ≤
        (getWarehouseSnapshotDetailsFromLots_ (getLastSku_ lastSkuM actorKey) prods w lots).piece) →
      (handleOutMessage now lock lastSkuM lastWhM prods lots actorKey outBox outPiece whHint).1 =
        .ledgerCall (getLastSku_ lastSkuM actorKey) w outBox outPiece) ∧
    (∀ (pbSku pbWh : String) (pbBox pbPiece : Nat),
      (if pbSku = "" then getLastSku_ lastSkuM actorKey else pbSku) ≠ "" →
      (((getWarehouseSnapshotDetailsFromLots_
          (if pbSku = "" then getLastSku_ lastSkuM actorKey else pbSku) prods
          (getWarehouseCodeForLabel_ pbWh) lots).box < (pbBox : ℚ) ∨
        (getWarehouseSnapshotDetailsFromLots_
          (if pbSku = "" then getLastSku_ lastSkuM actorKey else pbSku) prods
          (getWarehouseCodeForLabel_ pbWh) lots).piece < (pbPiece : ℚ)) →
        ∀ s2 w2 b2 p2, (handleOutPostback now lock lastSkuM prods lots actorKey pbSku pbWh pbBox
          pbPiece).1 ≠ .ledgerCall s2 w2 b2 p2) ∧
      (((pbBox : ℚ) ≤ (getWarehouseSnapshotDetailsFromLots_
          (if pbSku = "" then getLastSku_ lastSkuM actorKey else pbSku) prods
          (getWarehouseCodeForLabel_ pbWh) lots).box ∧
        (pbPiece : ℚ) ≤ (getWarehouseSnapshotDetailsFromLots_
          (if pbSku = "" then getLastSku_ lastSkuM actorKey else pbSku) prods
          (getWarehouseCodeForLabel_ pbWh) lots).piece) →
        (handleOutPostback now lock lastSkuM prods lots actorKey pbSku pbWh pbBox pbPiece).1 =
          .ledgerCall (if pbSku = "" then getLastSku_ lastSkuM actorKey else pbSku)
            (getWarehouseCodeForLabel_ pbWh) pbBox pbPiece)) := by
  have hmsg := handleOutMessage_decide now lock lastSkuM lastWhM prods lots actorKey outBox
    outPiece whHint w hq hlock hsku hne hch
  refine ⟨?_, ?_, ?_⟩
  · intro hex
    rw [hmsg]
    constructor
    · exact congrArg Prod.fst (congrArg (fun r => (r, setOutLock_ now lock actorKey)) rfl) ▸
        outDecide_insufficient prods lots _ w outBox outPiece hex
    · intro s2 w2 b2 p2
      rw [outDecide_insufficient prods lots _ w outBox outPiece hex]
      simp
  · intro hsuff
    rw [hmsg]
    exact outDecide_ledger prods lots _ w outBox outPiece hsuff.1 hsuff.2
  · intro pbSku pbWh pbBox pbPiece hsku2
    have hpb := handleOutPostback_decide now lock lastSkuM prods lots actorKey pbSku pbWh pbBox
      pbPiece hsku2 hlock
    constructor
    · intro hex s2 w2 b2 p2
      rw [hpb]
      rw [outDecide_insufficient prods lots _ _ pbBox pbPiece hex]
      simp
    · intro hsuff
      rw [hpb]
      exact outDecide_ledger prods lots _ _ pbBox pbPiece hsuff.1 hsuff.2

/-- C1 witness: requesting 3 boxes against a snapshot of 2 boxes (piece
request 0) is rejected as insufficient. -/
theorem c1_insufficient_guard_witness :
    (handleOutMessage 0 [] [("u", "a564")] [] [("a564", 10)]
      [⟨"a564", "main", "box", 2, 5⟩] "u" 3 0 (some "main")).1 =
      OutResult.insufficient "總倉" 2 0 := by
  have h := (c1_insufficient_guard 0 [] [("u", "a564")] [] [("a564", 10)]
    [⟨"a564", "main", "box", 2, 5⟩] "u" 3 0 (some "main") "main" (by decide) (by decide)
    (by decide)
    (by simp +decide [getWarehousesStockBySkuFromLots_, skuKey_, getUnitsPerBox, lotsQuery,
      lotMatchesSku, stockStep, mapUpd, mapGetD, lookupS, emptyWhAcc, addLot, normWh,
      resolveWarehouseLabel_, jsToLower, jsTrim, trimL, getLastSku_])
    (by decide)).1
    (Or.inl (by simp +decide [getWarehouseSnapshotDetailsFromLots_, skuKey_, whCodeKey,
      getUnitsPerBox, snapLotsQuery, addLot, emptyWhAcc, lookupS, jsToLower, jsTrim, trimL,
      getLastSku_, mapGetD]))
  refine h.1.trans ?_
  simp +decide [getWarehouseSnapshotDetailsFromLots_, skuKey_, whCodeKey, getUnitsPerBox,
    snapLotsQuery, addLot, emptyWhAcc, lookupS, jsToLower, jsTrim, trimL, getLastSku_,
    mapGetD, resolveWarehouseLabel_]

/-- C8: whenever the token scan finds at least one quantity token and
non-whitespace text remains after removing the matched tokens,
`parseOutCommand` rejects the whole input with the `has_extra_text`
error (never a partial parse); `parseCommand`'s anchored pattern
likewise rejects `出3箱2件給我` outright. -/
theorem c8_extra_text :
    (∀ (s : String) (pfx : String) (restCs : List Char),
      outSplit (normalizeText_ s).data = some (pfx, restCs) →
      (scanTokens (jsTrim (String.mk restCs)).data).1 ≠ [] →
      (scanTokens (jsTrim (String.mk restCs)).data).2.filter (fun c => !(jsWs c)) ≠ [] →
      parseOutCommand s = .err "has_extra_text" (some (normalizeText_ s))) ∧
    parseCommand "出3箱2件給我" = none := by
  constructor
  · intro s pfx restCs hsplit htok hres
    have htext : normalizeText_ s ≠ "" := by
      intro he
      rw [he] at hsplit
      rw [show outSplit ("" : String).data = none from rfl] at hsplit
      exact Option.noConfusion hsplit
    have hrest : jsTrim (String.mk restCs) ≠ "" := by
      intro he
      rw [he] at htok
      exact htok (by decide)
    simp [parseOutCommand, htext, hsplit, hrest, htok, hres]
  · decide

/-- C8 witness: `出3箱2件給我` leaves the residue `2件給我` after token
removal and is rejected whole. -/
theorem c8_extra_text_witness :
    parseOutCommand "出3箱2件給我" = .err "has_extra_text" (some "出3箱2件給我") := by
  have h := c8_extra_text.1 "出3箱2件給我" "出" ("3箱2件給我".data) (by decide) (by decide)
    (by decide)
  exact h.trans (by decide)

/-- C9 (amended): parsed quantities are naturals (hence nonnegative
integers); `parseOutCommand` never returns `ok` with both quantities
zero; `parseCommand` can return an outbound change with both zero
(e.g. `出`), but the handler's both-zero guard answers it with the
format hint and the ledger call is never reached. -/
theorem c9_nonzero_guard :
    (∀ (s : String) (b p : Nat) (n : String), parseOutCommand s = .ok b p n →
      ¬(b = 0 ∧ p = 0)) ∧
    (∀ (now : Nat) (lock : List (String × Nat)) (lastSkuM lastWhM : List (String × String))
      (prods : List (String × Int)) (lots : List Lot) (actorKey : String)
      (whHint : Option String),
      handleOutMessage now lock lastSkuM lastWhM prods lots actorKey 0 0 whHint =
        (.formatHint, lock) ∧
      ∀ s2 w2 b2 p2, (handleOutMessage now lock lastSkuM lastWhM prods lots actorKey 0 0
        whHint).1 ≠ .ledgerCall s2 w2 b2 p2) := by
  constructor
  · intro s b p n h
    rintro ⟨rfl, rfl⟩
    by_cases h0 : normalizeText_ s = ""
    · simp [parseOutCommand, h0] at h
    · cases hsp : outSplit (normalizeText_ s).data with
      | none => simp [parseOutCommand, h0, hsp] at h
      | some pr =>
        obtain ⟨pfx, restCs⟩ := pr
        by_cases h1 : jsTrim (String.mk restCs) = ""
        · simp [parseOutCommand, h0, hsp, h1] at h
        · by_cases h2 : (scanTokens (jsTrim (String.mk restCs)).data).1 = []
          · simp [parseOutCommand, h0, hsp, h1, h2] at h
          · by_cases h3 :
              (scanTokens (jsTrim (String.mk restCs)).data).2.filter (fun c => !(jsWs c)) = []
            · simp [parseOutCommand, h0, hsp, h1, h2, h3] at h
              split at h
              · simp at h
              · rename_i hguard
                simp only [OutParse.ok.injEq] at h
                exact hguard ⟨h.1, h.2.1⟩
            · simp [parseOutCommand, h0, hsp, h1, h2, h3] at h
  · intro now lock lastSkuM lastWhM prods lots actorKey whHint
    have hm : handleOutMessage now lock lastSkuM lastWhM prods lots actorKey 0 0 whHint =
        (.formatHint, lock) := by
      simp [handleOutMessage]
    refine ⟨hm, ?_⟩
    intro s2 w2 b2 p2
    rw [hm]
    simp

/-- C9 witness: a successful parse (`出3箱2pcs` ⇒ 3 box, 2 piece) is not
both-zero, and a both-zero request gets the format hint. -/
theorem c9_nonzero_guard_witness :
    ¬((3 : Nat) = 0 ∧ (2 : Nat) = 0) ∧
    handleOutMessage 0 [] [] [] [] [] "u" 0 0 none = (.formatHint, []) :=
  ⟨c9_nonzero_guard.1 "出3箱2pcs" 3 2 "出 3箱 2件" (by decide),
   (c9_nonzero_guard.2 0 [] [] [] [] [] "u" none).1⟩

/-- C5: the stock aggregator returns exactly the warehouses whose
accumulated stock is nonzero (box > 0 or piece > 0), and for each
returned warehouse the box field is the sum of remaining quantity over
that warehouse's box-denominated lots of the SKU with positive remaining
quantity, the piece field is the same sum over its piece-denominated
lots, and the monetary amount is the piece-lot value plus the box-lot
value scaled by the SKU's units-per-box (assumed positive, as the
product master provides). -/
theorem c5_stock_aggregator (sku : String) (prods : List (String × Int)) (lots : List Lot)
    (hs : skuKey_ sku ≠ "") (hu : 0 < getUnitsPerBox prods (skuKey_ sku)) :
    (∀ e ∈ getWarehousesStockBySkuFromLots_ sku prods lots,
      e.box = specBoxSum (skuKey_ sku) e.code lots ∧
      e.piece = specPieceSum (skuKey_ sku) e.code lots ∧
      e.amount = specAmountSum (skuKey_ sku) e.code (getUnitsPerBox prods (skuKey_ sku)) lots ∧
      e.label = resolveWarehouseLabel_ e.code ∧
      (0 < e.box ∨ 0 < e.piece)) ∧
    (∀ wh : String,
      (0 < specBoxSum (skuKey_ sku) wh lots ∨ 0 < specPieceSum (skuKey_ sku) wh lots) →
      ∃ e ∈ getWarehousesStockBySkuFromLots_ sku prods lots, e.code = wh) := by
  have hu0 : getUnitsPerBox prods (skuKey_ sku) ≠ 0 := by omega
  have hupb : (if getUnitsPerBox prods (skuKey_ sku) = 0 then 1
      else getUnitsPerBox prods (skuKey_ sku)) = getUnitsPerBox prods (skuKey_ sku) :=
    if_neg hu0
  have hout : getWarehousesStockBySkuFromLots_ sku prods lots =
      (((lotsQuery (skuKey_ sku) lots).foldl
          (stockStep (getUnitsPerBox prods (skuKey_ sku))) []).filter
        (fun p => decide (0 < p.2.box) || decide (0 < p.2.piece))).map
        (fun p => ⟨p.1, resolveWarehouseLabel_ p.1, p.2.box, p.2.piece, p.2.amount⟩) := by
    simp only [getWarehousesStockBySkuFromLots_]
    rw [if_neg hs, hupb]
  have hnodup : (((lotsQuery (skuKey_ sku) lots).foldl
      (stockStep (getUnitsPerBox prods (skuKey_ sku))) []).map Prod.fst).Nodup :=
    nodup_keys_stockFold _ _ [] (by simp)
  have hlook : ∀ wh : String,
      lookupS ((lotsQuery (skuKey_ sku) lots).foldl
        (stockStep (getUnitsPerBox prods (skuKey_ sku))) []) wh =
      (if (lotsQuery (skuKey_ sku) lots).any (fun l => decide (normWh l.warehouse_code = wh))
       then some ⟨((lotsQuery (skuKey_ sku) lots).map (kBox wh)).sum,
         ((lotsQuery (skuKey_ sku) lots).map (kPiece wh)).sum,
         ((lotsQuery (skuKey_ sku) lots).map
           (kAmt wh (getUnitsPerBox prods (skuKey_ sku)))).sum⟩
       else none) := by
    intro wh
    have h := lookupS_stockFold (getUnitsPerBox prods (skuKey_ sku))
      (lotsQuery (skuKey_ sku) lots) [] wh
    simpa [lookupS] using h
  constructor
  · intro e he
    rw [hout] at he
    obtain ⟨pp, hpfilter, rfl⟩ := List.mem_map.mp he
    obtain ⟨hpm, hpcond⟩ := List.mem_filter.mp hpfilter
    have hlk : lookupS ((lotsQuery (skuKey_ sku) lots).foldl
        (stockStep (getUnitsPerBox prods (skuKey_ sku))) []) pp.1 = some pp.2 := by
      refine lookupS_of_mem _ _ _ hnodup ?_
      rw [Prod.mk.eta]
      exact hpm
    rw [hlook pp.1] at hlk
    by_cases hany : (lotsQuery (skuKey_ sku) lots).any
        (fun l => decide (normWh l.warehouse_code = pp.1)) = true
    · rw [if_pos hany] at hlk
      have hacc : pp.2 = ⟨((lotsQuery (skuKey_ sku) lots).map (kBox pp.1)).sum,
          ((lotsQuery (skuKey_ sku) lots).map (kPiece pp.1)).sum,
          ((lotsQuery (skuKey_ sku) lots).map
            (kAmt pp.1 (getUnitsPerBox prods (skuKey_ sku)))).sum⟩ := by
        exact (Option.some.injEq _ _ ▸ hlk).symm
      refine ⟨?_, ?_, ?_, rfl, ?_⟩
      · show pp.2.box = _
        rw [hacc]
        exact kBox_bridge _ _ _
      · show pp.2.piece = _
        rw [hacc]
        exact kPiece_bridge _ _ _
      · show pp.2.amount = _
        rw [hacc]
        exact kAmt_bridge _ _ _ _
      · simpa using hpcond
    · rw [if_neg hany] at hlk
      exact Option.noConfusion hlk
  · intro wh hpos
    have hany : (lotsQuery (skuKey_ sku) lots).any
        (fun l => decide (normWh l.warehouse_code = wh)) = true := by
      by_contra hany
      have hall : ∀ l ∈ lotsQuery (skuKey_ sku) lots, normWh l.warehouse_code ≠ wh := by
        intro l hl he
        exact hany (List.any_eq_true.mpr ⟨l, hl, by simp [he]⟩)
      have hz1 : ((lotsQuery (skuKey_ sku) lots).map (kBox wh)).sum = 0 :=
        sum_map_zeroQ _ _ fun l hl => by simp [kBox, hall l hl]
      have hz2 : ((lotsQuery (skuKey_ sku) lots).map (kPiece wh)).sum = 0 :=
        sum_map_zeroQ _ _ fun l hl => by simp [kPiece, hall l hl]
      rcases hpos with h | h
      · rw [← kBox_bridge, hz1] at h
        exact lt_irrefl 0 h
      · rw [← kPiece_bridge, hz2] at h
        exact lt_irrefl 0 h
    have hlk := hlook wh
    rw [if_pos hany] at hlk
    have hmem := mem_of_lookupS _ _ _ hlk
    have hcond : (decide (0 < (⟨((lotsQuery (skuKey_ sku) lots).map (kBox wh)).sum,
        ((lotsQuery (skuKey_ sku) lots).map (kPiece wh)).sum,
        ((lotsQuery (skuKey_ sku) lots).map
          (kAmt wh (getUnitsPerBox prods (skuKey_ sku)))).sum⟩ : WhAcc).box) ||
        decide (0 < (⟨((lotsQuery (skuKey_ sku) lots).map (kBox wh)).sum,
        ((lotsQuery (skuKey_ sku) lots).map (kPiece wh)).sum,
        ((lotsQuery (skuKey_ sku) lots).map
          (kAmt wh (getUnitsPerBox prods (skuKey_ sku)))).sum⟩ : WhAcc).piece)) = true := by
      simp only [Bool.or_eq_true, decide_eq_true_eq]
      rcases hpos with h | h
      · left
        rw [kBox_bridge]
        exact h
      · right
        rw [kPiece_bridge]
        exact h
    refine ⟨⟨wh, resolveWarehouseLabel_ wh,
      ((lotsQuery (skuKey_ sku) lots).map (kBox wh)).sum,
      ((lotsQuery (skuKey_ sku) lots).map (kPiece wh)).sum,
      ((lotsQuery (skuKey_ sku) lots).map
        (kAmt wh (getUnitsPerBox prods (skuKey_ sku)))).sum⟩, ?_, rfl⟩
    rw [hout]
    have hf : (wh, (⟨((lotsQuery (skuKey_ sku) lots).map (kBox wh)).sum,
        ((lotsQuery (skuKey_ sku) lots).map (kPiece wh)).sum,
        ((lotsQuery (skuKey_ sku) lots).map
          (kAmt wh (getUnitsPerBox prods (skuKey_ sku)))).sum⟩ : WhAcc)) ∈
        ((lotsQuery (skuKey_ sku) lots).foldl
          (stockStep (getUnitsPerBox prods (skuKey_ sku))) []).filter
          (fun p => decide (0 < p.2.box) || decide (0 < p.2.piece)) :=
      List.mem_filter.mpr ⟨hmem, by exact hcond⟩
    exact List.mem_map_of_mem
      (fun p => (⟨p.1, resolveWarehouseLabel_ p.1, p.2.box, p.2.piece, p.2.amount⟩ : WhStock)) hf

/-- C5 witness: an SKU with box and piece lots in `main`, a piece lot in
`swap`, and a foreign-SKU lot that must be ignored. -/
theorem c5_stock_aggregator_witness :
    (∀ e ∈ getWarehousesStockBySkuFromLots_ "a564" [("a564", 10)]
        [⟨"a564", "main", "box", 2, 5⟩, ⟨"a564", "main", "piece", 3, 4⟩,
         ⟨"a564", "swap", "piece", 7, 2⟩, ⟨"b999", "main", "box", 4, 1⟩],
      e.box = specBoxSum (skuKey_ "a564") e.code
          [⟨"a564", "main", "box", 2, 5⟩, ⟨"a564", "main", "piece", 3, 4⟩,
           ⟨"a564", "swap", "piece", 7, 2⟩, ⟨"b999", "main", "box", 4, 1⟩] ∧
      e.piece = specPieceSum (skuKey_ "a564") e.code
          [⟨"a564", "main", "box", 2, 5⟩, ⟨"a564", "main", "piece", 3, 4⟩,
           ⟨"a564", "swap", "piece", 7, 2⟩, ⟨"b999", "main", "box", 4, 1⟩] ∧
      e.amount = specAmountSum (skuKey_ "a564") e.code
          (getUnitsPerBox [("a564", 10)] (skuKey_ "a564"))
          [⟨"a564", "main", "box", 2, 5⟩, ⟨"a564", "main", "piece", 3, 4⟩,
           ⟨"a564", "swap", "piece", 7, 2⟩, ⟨"b999", "main", "box", 4, 1⟩] ∧
      e.label = resolveWarehouseLabel_ e.code ∧
      (0 < e.box ∨ 0 < e.piece)) ∧
    (∀ wh : String,
      (0 < specBoxSum (skuKey_ "a564") wh
          [⟨"a564", "main", "box", 2, 5⟩, ⟨"a564", "main", "piece", 3, 4⟩,
           ⟨"a564", "swap", "piece", 7, 2⟩, ⟨"b999", "main", "box", 4, 1⟩] ∨
       0 < specPieceSum (skuKey_ "a564") wh
          [⟨"a564", "main", "box", 2, 5⟩, ⟨"a564", "main", "piece", 3, 4⟩,
           ⟨"a564", "swap", "piece", 7, 2⟩, ⟨"b999", "main", "box", 4, 1⟩]) →
      ∃ e ∈ getWarehousesStockBySkuFromLots_ "a564" [("a564", 10)]
          [⟨"a564", "main", "box", 2, 5⟩, ⟨"a564", "main", "piece", 3, 4⟩,
           ⟨"a564", "swap", "piece", 7, 2⟩, ⟨"b999", "main", "box", 4, 1⟩], e.code = wh) :=
  c5_stock_aggregator "a564" [("a564", 10)]
    [⟨"a564", "main", "box", 2, 5⟩, ⟨"a564", "main", "piece", 3, 4⟩,
     ⟨"a564", "swap", "piece", 7, 2⟩, ⟨"b999", "main", "box", 4, 1⟩]
    (by decide) (by decide)
